import Mathlib

/-!
Verification of the PDDL contract-planning core of this repository
(`app/utils/pddl`): the contract data model (`pddl_classes.py`), the
contract validator and greedy scheduler (`main.py`), the task execution
manager (`task_execution_manager.py`), and the resource manager interface.

Python values, dictionaries and classes are shallowly embedded: dicts become
association lists, Python runtime values become the inductive `Value`,
exceptions become `Except`/`Option`, and mutation becomes explicit state
passing.  Machine arithmetic is exact (Python ints are unbounded).
-/

set_option autoImplicit false

namespace PDDLCore

/-- TaskStatus enum from `pddl_classes.py` (string-valued Python enum). -/
inductive TaskStatus where
  | pending | queued | scheduled | ready
  | in_progress | running | processing | executing
  | blocked | waiting | paused | suspended | on_hold
  | completed | success | finished
  | failed | error | timeout | aborted | cancelled
  | under_review | approved | rejected
  | retrying | retry_pending
deriving DecidableEq, Repr

/-- ResourceType enum from `pddl_classes.py`. -/
inductive ResourceType where
  | developer | qa | designer | product_manager | devops_engineer
  | data_scientist | security_analyst | business_analyst
  | database | cache | message_queue | load_balancer | cdn | storage | backup
  | compute | cpu | gpu | memory | container | virtual_machine | serverless_function
  | network | bandwidth | vpn | firewall | dns
  | api_endpoint | microservice | web_server | application_server
  | file_system | object_storage | data_warehouse | data_lake
  | third_party_api | external_service | payment_gateway
  | ssl_certificate | secret_manager | authentication_service
  | monitoring_system | logging_service | alerting_system
deriving DecidableEq, Repr

/-- DataType enum from `pddl_classes.py`. -/
inductive DataType where
  | string | integer | float | decimal | boolean | null
  | date | time | date_time | timestamp | timezone | duration
  | json | xml | yaml | csv | array | list | dictionary | object
  | file | binary | text_file | image | video | audio | document
  | pdf | word_doc | excel | powerpoint | html | markdown
  | url | email | ip_address | mac_address | uuid
  | database_record | primary_key | foreign_key | blob | clob
  | coordinate | latitude | longitude | address | postal_code
  | currency | price | percentage
  | password | token | api_key | encrypted_data | hash
  | phone_number | message | notification
  | metric | unit_of_measure | quantity
  | regex_pattern | color_code | version_number | status_code
deriving DecidableEq, Repr

/-- The `.value` string of each DataType member (used in type-mismatch
violation messages by the validator). -/
def dataTypeValue : DataType → String
  | .string => "string" | .integer => "integer" | .float => "float"
  | .decimal => "decimal" | .boolean => "boolean" | .null => "null"
  | .date => "date" | .time => "time" | .date_time => "datetime"
  | .timestamp => "timestamp" | .timezone => "timezone" | .duration => "duration"
  | .json => "json" | .xml => "xml" | .yaml => "yaml" | .csv => "csv"
  | .array => "array" | .list => "list" | .dictionary => "dictionary"
  | .object => "object"
  | .file => "file" | .binary => "binary" | .text_file => "text_file"
  | .image => "image" | .video => "video" | .audio => "audio"
  | .document => "document"
  | .pdf => "pdf" | .word_doc => "word_doc" | .excel => "excel"
  | .powerpoint => "powerpoint" | .html => "html" | .markdown => "markdown"
  | .url => "url" | .email => "email" | .ip_address => "ip_address"
  | .mac_address => "mac_address" | .uuid => "uuid"
  | .database_record => "database_record" | .primary_key => "primary_key"
  | .foreign_key => "foreign_key" | .blob => "blob" | .clob => "clob"
  | .coordinate => "coordinate" | .latitude => "latitude"
  | .longitude => "longitude" | .address => "address"
  | .postal_code => "postal_code"
  | .currency => "currency" | .price => "price" | .percentage => "percentage"
  | .password => "password" | .token => "token" | .api_key => "api_key"
  | .encrypted_data => "encrypted_data" | .hash => "hash"
  | .phone_number => "phone_number" | .message => "message"
  | .notification => "notification"
  | .metric => "metric" | .unit_of_measure => "unit_of_measure"
  | .quantity => "quantity"
  | .regex_pattern => "regex_pattern" | .color_code => "color_code"
  | .version_number => "version_number" | .status_code => "status_code"

/-- Shallow embedding of the Python runtime values the validator and executor
handle: strings, ints, bools, lists, string-keyed dicts, and None.  Python
bools are a subclass of int; that is reflected in the type predicates below,
not in the value representation. -/
inductive Value where
  | str (s : String)
  | int (n : Int)
  | bool (b : Bool)
  | list (xs : List Value)
  | dict (kvs : List (String × Value))
  | none

/-- Python truthiness, `bool(value)`. -/
def pyTruthy : Value → Bool
  | .str s => !s.toList.isEmpty
  | .int n => n != 0
  | .bool b => b
  | .list xs => !xs.isEmpty
  | .dict kvs => !kvs.isEmpty
  | .none => false

/-- Python `repr` of a string: quote selection and escaping of backslash,
quote character, newline, carriage return and tab.  (The `\xNN` escapes that
CPython emits for other non-printable characters are not modelled; no
repository string reaches them.) -/
def pyReprString (s : String) : String :=
  let q : Char := if s.toList.contains '\x27' && !(s.toList.contains '"') then '"' else '\x27'
  let esc : Char → String := fun c =>
    if c = '\\' then "\\\\"
    else if c = q then "\\" ++ q.toString
    else if c = '\n' then "\\n"
    else if c = '\r' then "\\r"
    else if c = '\t' then "\\t"
    else c.toString
  q.toString ++ String.join (s.toList.map esc) ++ q.toString

mutual
/-- Python `repr` of a value (strings quoted, containers recursive). -/
def pyRepr : Value → String
  | .str s => pyReprString s
  | .int n => toString n
  | .bool b => if b then "True" else "False"
  | .none => "None"
  | .list xs => "[" ++ pyReprList xs ++ "]"
  | .dict kvs => "\x7b" ++ pyReprDict kvs ++ "\x7d"

/-- Comma-joined `repr` of list elements. -/
def pyReprList : List Value → String
  | [] => ""
  | [v] => pyRepr v
  | v :: rest => pyRepr v ++ ", " ++ pyReprList rest

/-- Comma-joined `repr` of dict entries. -/
def pyReprDict : List (String × Value) → String
  | [] => ""
  | [kv] => pyReprString kv.fst ++ ": " ++ pyRepr kv.snd
  | kv :: rest => pyReprString kv.fst ++ ": " ++ pyRepr kv.snd ++ ", " ++ pyReprDict rest
end

/-- Python `str` of a value: identity on strings, `repr` otherwise
(containers stringify their elements with `repr`). -/
def pyStr : Value → String
  | .str s => s
  | v => pyRepr v

/-- Whether the character list contains `sep` as a contiguous sublist
(leftmost-scan, like the Python substring test). -/
def containsSub (sep : List Char) : List Char → Bool
  | [] => sep.isEmpty
  | c :: rest => sep.isPrefixOf (c :: rest) || containsSub sep rest

/-- Python substring test `sub in s`, for a non-empty separator `sub`
(every rule-grammar separator in the source is non-empty). -/
def pyIn (sub s : String) : Bool :=
  containsSub sub.toList s.toList

/-- The suffix right after the leftmost occurrence of `sep`, if any. -/
def afterFirst (sep : List Char) : List Char → Option (List Char)
  | [] => Option.none
  | c :: rest =>
      if sep.isPrefixOf (c :: rest) then some ((c :: rest).drop sep.length)
      else afterFirst sep rest

/-- The prefix up to (excluding) the leftmost occurrence of `sep`, or the
whole list if `sep` does not occur. -/
def upToNext (sep : List Char) : List Char → List Char
  | [] => []
  | c :: rest =>
      if sep.isPrefixOf (c :: rest) then []
      else c :: upToNext sep rest

/-- Python `s.split(sep)[1]`: the segment between the leftmost occurrence of
`sep` and the next (non-overlapping) occurrence; `Option.none` when `sep`
does not occur (where the Python subscript would raise). -/
def pySplitSecond (sep s : String) : Option String :=
  (afterFirst sep.toList s.toList).map (fun cs => (upToNext sep.toList cs).asString)

/-- Python whitespace, for `str.strip()`. -/
def isPySpace (c : Char) : Bool :=
  c = ' ' || c = '\t' || c = '\n' || c = '\r' || c = '\x0b' || c = '\x0c'

/-- Python `s.strip()`. -/
def pyStrip (s : String) : String :=
  (((s.toList.dropWhile isPySpace).reverse.dropWhile isPySpace).reverse).asString

/-- Python `int(text)` on a decimal string: surrounding whitespace, an
optional sign, then digits; `Option.none` models the `ValueError` raised on
anything else.  (Pythons digit-group underscores are not modelled; no
repository rule string uses them.) -/
def pyInt? (s : String) : Option Int :=
  let digitsToNat? : List Char → Option Nat := fun cs =>
    if cs.isEmpty then Option.none
    else if cs.all (·.isDigit) then
      some (cs.foldl (fun a c => a * 10 + (c.toNat - 48)) 0)
    else Option.none
  match (pyStrip s).toList with
  | '+' :: rest => (digitsToNat? rest).map Int.ofNat
  | '-' :: rest => (digitsToNat? rest).map (fun n => -(Int.ofNat n))
  | cs => (digitsToNat? cs).map Int.ofNat

/-- InputContract from `pddl_classes.py`. -/
structure InputContract where
  name : String
  data_type : DataType
  required : Bool := true
  validation_rules : List String := []
  example_value : Option String := Option.none
  description : String := ""
deriving DecidableEq, Repr

/-- OutputContract from `pddl_classes.py`. -/
structure OutputContract where
  name : String
  data_type : DataType
  validation_rules : List String := []
  example_value : Option String := Option.none
  description : String := ""
deriving DecidableEq, Repr

/-- TaskContract from `pddl_classes.py`. -/
structure TaskContract where
  task_id : String
  inputs : List InputContract := []
  outputs : List OutputContract := []
  preconditions : List String := []
  postconditions : List String := []
  side_effects : List String := []
deriving DecidableEq, Repr

/-- Task from `pddl_classes.py`.  `duration_hours` is a pydantic int with
`gt=0`; a validated instance is a non-negative integer, so `Nat` is exact. -/
structure Task where
  id : String
  name : String
  description : String
  duration_hours : Nat
  dependencies : List String := []
  required_resources : List String := []
  status : TaskStatus := .pending
  contract : TaskContract
  generated_code : Option String := Option.none
  execution_environment : String := "python"
deriving Repr

/-- Resource from `pddl_classes.py`. -/
structure Resource where
  id : String
  name : String
  resource_type : ResourceType
  available : Bool := true
  capacity : Nat := 1
  properties : List (String × Value) := []

/-- ExecutionContext from `pddl_classes.py`. -/
structure ExecutionContext where
  task_id : String
  inputs : List (String × Value)
  outputs : List (String × Value) := []
  errors : List String := []
  execution_trace : List String := []
  resource_state : List (String × Value) := []

/-- PlanningState from `pddl_classes.py`.  `available_resources` holds the
post-`model_post_init` list (on construction without an explicit list it is
the ids of the resources marked available). -/
structure PlanningState where
  tasks : List (String × Task)
  resources : List (String × Resource)
  completed_tasks : List String := []
  failed_tasks : List String := []
  current_time : Nat := 0
  available_resources : List String
  execution_contexts : List (String × ExecutionContext) := []
  global_state : List (String × Value) := []

/-! ## Contract validator (`ContractValidator` in `main.py`) -/

/-- `ContractValidator._validate_data_type`: the per-type predicate table;
types without a validator entry accept any value.  `pathExists` abstracts
`os.path.exists` (filesystem state).  Python `isinstance(v, int)` is true for
bools (bool subclasses int), which the `integer` case reflects;
`isinstance(v, bool)` is true only for bools. -/
def validateDataType (pathExists : String → Bool) (value : Value) (expected : DataType) : Bool :=
  match expected with
  | .string => match value with | .str _ => true | _ => false
  | .integer => match value with | .int _ => true | .bool _ => true | _ => false
  | .boolean => match value with | .bool _ => true | _ => false
  | .json => match value with | .dict _ => true | .list _ => true | _ => false
  | .file => match value with | .str s => pathExists s | _ => false
  | .url => match value with
            | .str s => s.startsWith "http://" || s.startsWith "https://"
            | _ => false
  | .database_record => match value with
                        | .dict kvs => kvs.any (fun kv => kv.fst == "id")
                        | _ => false
  | _ => true

/-- `ContractValidator._validate_rule`.  The `try` block can only raise in
`int(rule.split("length >")[1].strip())`; a failed parse therefore lands in
the `except` branch and yields `False`.  All other branches are total. -/
def validateRule (value : Value) (rule : String) : Bool :=
  if pyIn "length >" rule then
    match pyInt? (pyStrip ((pySplitSecond "length >" rule).getD "")) with
    | some n => decide (((pyStr value).length : Int) > n)
    | Option.none => false
  else if pyIn "not empty" rule then
    pyTruthy value
  else if pyIn "positive" rule then
    match value with
    | .int n => decide (n > 0)
    | .bool b => b
    | _ => false
  else
    true

/-- Violation message for a missing required input. -/
def missingInputMsg (name taskId : String) : String :=
  "Required input \x27" ++ name ++ "\x27 missing for task " ++ taskId

/-- Violation message for an input of the wrong runtime type. -/
def wrongTypeInputMsg (name : String) (dt : DataType) : String :=
  "Input \x27" ++ name ++ "\x27 has wrong type. Expected " ++ dataTypeValue dt

/-- Violation message for an input failing a validation rule. -/
def ruleFailInputMsg (name rule : String) : String :=
  "Input \x27" ++ name ++ "\x27 failed validation rule: " ++ rule

/-- Violation message for a missing output. -/
def missingOutputMsg (name taskId : String) : String :=
  "Required output \x27" ++ name ++ "\x27 missing for task " ++ taskId

/-- Violation message for an output of the wrong runtime type. -/
def wrongTypeOutputMsg (name : String) (dt : DataType) : String :=
  "Output \x27" ++ name ++ "\x27 has wrong type. Expected " ++ dataTypeValue dt

/-- Violation message for an output failing a validation rule. -/
def ruleFailOutputMsg (name rule : String) : String :=
  "Output \x27" ++ name ++ "\x27 failed validation rule: " ++ rule

/-- One loop iteration of `validate_task_inputs`: the errors contributed by a
single InputContract.  `checkType` and `checkRule` are the type and rule
predicates (instantiated with the real ones in `validateTaskInputs`); keeping
them as parameters lets theorems express that a branch never consults them. -/
def specInputErrors (checkType : Value → DataType → Bool) (checkRule : Value → String → Bool)
    (taskId : String) (ic : InputContract) (inputs : List (String × Value)) : List String :=
  if ic.required && !((inputs.map Prod.fst).contains ic.name) then
    [missingInputMsg ic.name taskId]
  else
    match inputs.lookup ic.name with
    | some value =>
        (if checkType value ic.data_type then [] else [wrongTypeInputMsg ic.name ic.data_type])
        ++ ic.validation_rules.filterMap (fun rule =>
            if checkRule value rule then Option.none
            else some (ruleFailInputMsg ic.name rule))
    | Option.none => []

/-- `ContractValidator.validate_task_inputs`, generic in the two predicates:
the loop appends each InputContracts contribution in order. -/
def validateTaskInputsWith (checkType : Value → DataType → Bool)
    (checkRule : Value → String → Bool) (task : Task)
    (inputs : List (String × Value)) : List String :=
  (task.contract.inputs.map (fun ic => specInputErrors checkType checkRule task.id ic inputs)).flatten

/-- `ContractValidator.validate_task_inputs` with the real type and rule
predicates. -/
def validateTaskInputs (pathExists : String → Bool) (task : Task)
    (inputs : List (String × Value)) : List String :=
  validateTaskInputsWith (validateDataType pathExists) validateRule task inputs

/-- One loop iteration of `validate_task_outputs`: the errors contributed by
a single OutputContract (every declared output is implicitly required). -/
def specOutputErrors (checkType : Value → DataType → Bool) (checkRule : Value → String → Bool)
    (taskId : String) (oc : OutputContract) (outputs : List (String × Value)) : List String :=
  if !((outputs.map Prod.fst).contains oc.name) then
    [missingOutputMsg oc.name taskId]
  else
    match outputs.lookup oc.name with
    | some value =>
        (if checkType value oc.data_type then [] else [wrongTypeOutputMsg oc.name oc.data_type])
        ++ oc.validation_rules.filterMap (fun rule =>
            if checkRule value rule then Option.none
            else some (ruleFailOutputMsg oc.name rule))
    | Option.none => []

/-- `ContractValidator.validate_task_outputs`, generic in the predicates. -/
def validateTaskOutputsWith (checkType : Value → DataType → Bool)
    (checkRule : Value → String → Bool) (task : Task)
    (outputs : List (String × Value)) : List String :=
  (task.contract.outputs.map (fun oc => specOutputErrors checkType checkRule task.id oc outputs)).flatten

/-- `ContractValidator.validate_task_outputs` with the real predicates. -/
def validateTaskOutputs (pathExists : String → Bool) (task : Task)
    (outputs : List (String × Value)) : List String :=
  validateTaskOutputsWith (validateDataType pathExists) validateRule task outputs

/-! ## Scheduler (`EnhancedPDDLPlanner._generate_plan` / `_find_ready_tasks`) -/

/-- The per-task condition of `_find_ready_tasks`: not already completed,
status `pending`, every dependency completed, every required resource
available.  On a goal id that is not a key of `tasks`, the Python code raises
`KeyError`; this embedding returns `false` there, and every theorem touching
that region carries a well-formedness hypothesis making the ids task keys. -/
def readyCond (s : PlanningState) (tid : String) : Bool :=
  !(s.completed_tasks.contains tid) &&
    match s.tasks.lookup tid with
    | some task =>
        decide (task.status = TaskStatus.pending)
        && task.dependencies.all (fun d => s.completed_tasks.contains d)
        && task.required_resources.all (fun r => s.available_resources.contains r)
    | Option.none => false

/-- `EnhancedPDDLPlanner._find_ready_tasks`: the goal ids satisfying
`readyCond`, in goal-list order. -/
def findReadyTasks (s : PlanningState) (goals : List String) : List String :=
  goals.filter (readyCond s)

/-- One plan step: the dict appended by `_generate_plan` (an `execute_task`
record or an `error` record). -/
inductive PlanStep where
  | execute_task (task_id task_name : String) (duration start_time end_time : Nat)
      (resources_used : List String) (contract : TaskContract)
  | error (message : String) (time : Nat)
deriving DecidableEq, Repr

/-- Whether a step is an `error` step. -/
def isErrorStep : PlanStep → Bool
  | .error _ _ => true
  | _ => false

/-- The task ids of the `execute_task` steps of a plan, in order. -/
def execIds (plan : List PlanStep) : List String :=
  plan.filterMap (fun step =>
    match step with
    | .execute_task tid _ _ _ _ _ _ => some tid
    | .error _ _ => Option.none)

/-- The message of the error step: the Python f-string interpolates the
remaining-task list with `str`. -/
def planStuckMsg (remaining : List String) : String :=
  "Planning stuck. Remaining tasks: " ++ pyStr (Value.list (remaining.map Value.str))

/-- `working_state.tasks[task_id].status = st`: update the status of the
entry with the given key (all entries with that key; for the duplicate-free
key lists that represent Python dicts this is the single entry). -/
def setTaskStatus (tasks : List (String × Task)) (tid : String) (st : TaskStatus) :
    List (String × Task) :=
  tasks.map (fun kv => if kv.fst = tid then (kv.fst, { kv.snd with status := st }) else kv)

/-- The `while` loop of `_generate_plan`, with the remaining iteration budget
(`max_iterations - iteration`) as fuel; the budget is only consumed by
`execute_task` iterations, matching the `iteration += 1` placement.  The
state argument is the mutable `working_state`.  The inner `lookup` cannot
fail when the head of the ready list satisfies `readyCond`; the `[]` result
on that dead branch models the `KeyError` the Python would raise. -/
def generatePlanLoop (goals : List String) : Nat → PlanningState → List PlanStep
  | 0, _ => []
  | fuel + 1, ws =>
    if ws.completed_tasks.length < goals.length then
      match findReadyTasks ws goals with
      | [] =>
          [PlanStep.error
            (planStuckMsg (goals.filter (fun tid => !(ws.completed_tasks.contains tid))))
            ws.current_time]
      | tid :: _ =>
          match ws.tasks.lookup tid with
          | Option.none => []
          | some task =>
              PlanStep.execute_task tid task.name task.duration_hours ws.current_time
                  (ws.current_time + task.duration_hours) task.required_resources task.contract
                :: generatePlanLoop goals fuel
                    { ws with
                      tasks := setTaskStatus ws.tasks tid TaskStatus.completed,
                      completed_tasks := ws.completed_tasks ++ [tid],
                      current_time := ws.current_time + task.duration_hours }
    else []

/-- `EnhancedPDDLPlanner._generate_plan` with an explicit goal list.  The
Python first deep-copies the state (`PlanningState(**state.model_dump())`)
into `working_state`; the loop runs on that copy with budget
`len(working_state.tasks) * 2`. -/
def generatePlan (s : PlanningState) (goals : List String) : List PlanStep :=
  generatePlanLoop goals (s.tasks.length * 2) s

/-- `_generate_plan` with `goal_tasks=None`: the goal list defaults to
`list(state.tasks.keys())`. -/
def generatePlanDefault (s : PlanningState) : List PlanStep :=
  generatePlan s (s.tasks.map Prod.fst)

/-- A full `_generate_plan` call as seen by the caller: the returned plan
together with the callers state object after the call.  The loop mutates only
`working_state`, a deep copy (`PlanningState(**state.model_dump())`) sharing
no mutable structure with the argument, so the callers state after the call
is the argument itself. -/
def generatePlanRun (s : PlanningState) (goals : List String) :
    List PlanStep × PlanningState :=
  (generatePlanLoop goals (s.tasks.length * 2) s, s)

/-! ## Task execution manager (`TaskExecutionManager.execute_task`) -/

/-- The dict returned by `_execute_code_in_sandbox` (the sandbox helper is
called but not defined in `task_execution_manager.py`; only the keys the
caller reads are modelled, each optional because the caller tests key
presence or supplies a default). -/
structure SandboxResult where
  outputs : Option (List (String × Value)) := Option.none
  trace : Option (List String) := Option.none
  errors : Option (List String) := Option.none

/-- The result dict of `TaskExecutionManager.execute_task`: the `outputs` and
`trace` keys are present only on the non-short-circuit, non-raising path. -/
structure ExecResult where
  success : Bool
  outputs : Option (List (String × Value))
  errors : List String
  trace : Option (List String)

/-- `execute_task` outcome: the returned result dict plus the context and
task objects after the call (both are mutated in place by the Python). -/
structure ExecOutcome where
  result : ExecResult
  context : ExecutionContext
  task : Task

/-- The code the executor runs: the cached `task.generated_code` if present,
otherwise the fresh generation (`gen` abstracts
`model_client.generate_code_with_contract`, whose failure is an exception). -/
def obtainCode (task : Task) (gen : Except String String) : Except String String :=
  match task.generated_code with
  | some c => Except.ok c
  | Option.none => gen

/-- `TaskExecutionManager.execute_task`.  `gen` abstracts the code generator,
`sandbox` abstracts `_execute_code_in_sandbox` (absent from the file), both
with exceptions as `Except.error`; `pathExists` abstracts the filesystem for
the output type checks.  The `except Exception` handler turns any raise from
generation or the sandbox into the single-entry error result; mutations
already applied before a raise survive on the returned objects. -/
def executeTask (gen : Except String String)
    (sandbox : String → List (String × Value) → Except String SandboxResult)
    (pathExists : String → Bool) (task : Task) (ctx : ExecutionContext) : ExecOutcome :=
  if ctx.errors.isEmpty then
    match obtainCode task gen with
    | Except.error e =>
        ⟨⟨false, Option.none, ["Execution error: " ++ e], Option.none⟩, ctx, task⟩
    | Except.ok code =>
        let task1 : Task :=
          match task.generated_code with
          | some _ => task
          | Option.none => { task with generated_code := some code }
        match sandbox code ctx.inputs with
        | Except.error e =>
            ⟨⟨false, Option.none, ["Execution error: " ++ e], Option.none⟩, ctx, task1⟩
        | Except.ok res =>
            let ctx1 := { ctx with outputs := res.outputs.getD [] }
            let ctx2 := { ctx1 with execution_trace := ctx1.execution_trace ++ res.trace.getD [] }
            let ctx3 := { ctx2 with errors := ctx2.errors ++ res.errors.getD [] }
            let outErrs := validateTaskOutputs pathExists task1 ctx3.outputs
            let ctx4 := { ctx3 with errors := ctx3.errors ++ outErrs }
            ⟨⟨ctx4.errors.isEmpty, some ctx4.outputs, ctx4.errors, some ctx4.execution_trace⟩,
              ctx4, task1⟩
  else
    ⟨⟨false, Option.none, ctx.errors, Option.none⟩, ctx, task⟩

/-! ## Resource manager -/

/-- Modelled from the spec: class `ResourceManager` is imported in
`task_execution_manager.py` from `.main` but absent from the source tree;
per the spec it tracks an available-resource set and (resource, task)
allocation records. -/
structure ResourceManager where
  available : List String
  allocations : List (String × String)

/-- Modelled from the spec: `reserve(resource_ids, task_id) -> bool`
atomically checks all ids are currently available; if so, removes them from
the available set, records each (resource, task) allocation and returns
success; if any one is unavailable it returns failure with no partial
reservation. -/
def ResourceManager.reserve (rm : ResourceManager) (resource_ids : List String)
    (task_id : String) : Bool × ResourceManager :=
  if resource_ids.all (fun r => rm.available.contains r) then
    (true,
      ⟨rm.available.filter (fun r => !(resource_ids.contains r)),
        rm.allocations ++ resource_ids.map (fun r => (r, task_id))⟩)
  else
    (false, rm)

/-! ## Sample contracted tasks (`create_sample_contracted_tasks` in `main.py`) -/

/-- The `user_data` InputContract of the sample auth contract. -/
def userDataSpec : InputContract :=
  { name := "user_data"
    data_type := DataType.json
    required := true
    validation_rules := ["has username", "has password", "password length > 8"]
    description := "User registration/login data" }

/-- The `auth_config` InputContract of the sample auth contract. -/
def authConfigSpec : InputContract :=
  { name := "auth_config"
    data_type := DataType.json
    required := true
    validation_rules := ["has jwt_secret", "has expiry_time"]
    description := "Authentication configuration" }

/-- The `auth_contract` TaskContract of the sample. -/
def authContract : TaskContract :=
  { task_id := "auth_system"
    inputs := [userDataSpec, authConfigSpec]
    outputs :=
      [ { name := "auth_token"
          data_type := DataType.string
          validation_rules := ["not empty", "is_jwt_format"]
          description := "JWT authentication token" },
        { name := "user_id"
          data_type := DataType.integer
          validation_rules := ["positive"]
          description := "Unique user identifier" } ]
    preconditions := ["Database connection available", "JWT secret configured"]
    postconditions := ["Valid JWT token generated", "User session created"]
    side_effects := ["User record created/updated in database"] }

/-- The `auth_system` Task of the sample. -/
def authSystemTask : Task :=
  { id := "auth_system"
    name := "User Authentication System"
    description := "Implement secure user authentication with JWT"
    duration_hours := 8
    dependencies := []
    required_resources := ["developer", "database"]
    contract := authContract
    execution_environment := "python" }

/-- The C5 input map: `\x7b"user_data": \x7b"username": "t", "password": "short"\x7d\x7d`. -/
def c5Inputs : List (String × Value) :=
  [("user_data", Value.dict [("username", Value.str "t"), ("password", Value.str "short")])]

/-! ## Shared helper lemmas -/

/-- A successful association-list lookup means the key occurs in the key
list. -/
theorem lookup_isSome_mem_keys {β : Type} {l : List (String × β)} {k : String}
    (h : (l.lookup k).isSome) : k ∈ l.map Prod.fst := by
  induction l with
  | nil => simp [List.lookup] at h
  | cons kv rest ih =>
      rw [List.lookup] at h
      by_cases he : (k == kv.fst) = true
      · have : k = kv.fst := by simpa using he
        simp [this]
      · have hbe : (k == kv.fst) = false := by simpa using he
        rw [hbe] at h
        simp [ih h]

/-- With duplicate-free keys, membership of a pair determines the lookup. -/
theorem lookup_eq_of_mem {β : Type} {l : List (String × β)} {k : String} {v : β}
    (hnd : (l.map Prod.fst).Nodup) (h : (k, v) ∈ l) : l.lookup k = some v := by
  induction l with
  | nil => simp at h
  | cons kv rest ih =>
      rw [List.lookup]
      rcases List.mem_cons.mp h with he | hrest
      · rw [← he]; simp
      · have hk : k ≠ kv.fst := by
          intro hkk
          have : k ∈ rest.map Prod.fst :=
            List.mem_map.mpr ⟨(k, v), hrest, rfl⟩
          rw [List.map_cons, List.nodup_cons, ← hkk] at hnd
          exact hnd.1 this
        have hbe : (k == kv.fst) = false := by simp [hk]
        rw [hbe]
        exact ih (List.nodup_cons.mp (by rw [List.map_cons] at hnd; exact hnd)).2 hrest

/-- `readyCond` unfolded to its propositional reading. -/
theorem readyCond_iff (s : PlanningState) (tid : String) :
    readyCond s tid = true ↔
      tid ∉ s.completed_tasks
      ∧ ∃ t, s.tasks.lookup tid = some t
          ∧ t.status = TaskStatus.pending
          ∧ (∀ d ∈ t.dependencies, d ∈ s.completed_tasks)
          ∧ (∀ r ∈ t.required_resources, r ∈ s.available_resources) := by
  unfold readyCond
  cases hl : s.tasks.lookup tid with
  | none => simp [hl]
  | some t => simp [hl, List.all_eq_true, and_assoc]

/-! ## C2: the ready set -/

/-- C2: a task id is in the list returned by `_find_ready_tasks` iff it is a
goal task, not completed, its status is pending, all its dependencies are
completed, and all its required resources are available.  The hypothesis
makes every goal id a key of the task map, the region where the Python
lookup does not raise. -/
theorem find_ready_tasks_iff (s : PlanningState) (goals : List String) (tid : String)
    (hwf : ∀ g ∈ goals, (s.tasks.lookup g).isSome = true) :
    tid ∈ findReadyTasks s goals ↔
      tid ∈ goals ∧ tid ∉ s.completed_tasks
      ∧ ∃ t, s.tasks.lookup tid = some t
          ∧ t.status = TaskStatus.pending
          ∧ (∀ d ∈ t.dependencies, d ∈ s.completed_tasks)
          ∧ (∀ r ∈ t.required_resources, r ∈ s.available_resources) := by
  rw [findReadyTasks, List.mem_filter, readyCond_iff]

/-- A dependency-free pending task with no resource needs is ready: the C2
theorem applied to a one-task concrete state. -/
def c2Task : Task :=
  { id := "a", name := "a", description := "", duration_hours := 1,
    contract := { task_id := "a" } }

/-- The one-task concrete state used by the C2 and C1 witnesses. -/
def c2State : PlanningState :=
  { tasks := [("a", c2Task)], resources := [],
    completed_tasks := [], available_resources := [] }

/-- C2 witness: the ready-set characterization evaluated on `c2State`. -/
theorem find_ready_tasks_iff_witness :
    "a" ∈ findReadyTasks c2State ["a"] ↔
      "a" ∈ ["a"] ∧ "a" ∉ c2State.completed_tasks
      ∧ ∃ t, c2State.tasks.lookup "a" = some t
          ∧ t.status = TaskStatus.pending
          ∧ (∀ d ∈ t.dependencies, d ∈ c2State.completed_tasks)
          ∧ (∀ r ∈ t.required_resources, r ∈ c2State.available_resources) :=
  find_ready_tasks_iff c2State ["a"] "a" (by decide)

/-! ## C4: a missing required input yields exactly one violation -/

/-- Strings with equal character data are equal. -/
theorem string_eq_of_data {a b : String} (h : a.data = b.data) : a = b := by
  cases a; cases b; exact congrArg String.mk h

/-- The missing-input message determines the input name (for a fixed task
id): cancel the shared literal prefix and suffix on the character data. -/
theorem missingInputMsg_inj {n1 n2 t : String}
    (h : missingInputMsg n1 t = missingInputMsg n2 t) : n1 = n2 := by
  have hd : (("Required input \x27".data ++ n1.data) ++ "\x27 missing for task ".data) ++ t.data
      = (("Required input \x27".data ++ n2.data) ++ "\x27 missing for task ".data) ++ t.data :=
    congrArg String.data h
  have h1 := List.append_cancel_right hd
  have h2 := List.append_cancel_right h1
  exact string_eq_of_data (List.append_cancel_left h2)

/-- A missing-input message (first character R) is never a wrong-type
message (first character I). -/
theorem missing_ne_wrongType (n t m : String) (dt : DataType) :
    missingInputMsg n t ≠ wrongTypeInputMsg m dt := by
  intro h
  have hcontra : (some 'R' : Option Char) = some 'I' :=
    calc (some 'R' : Option Char) = (missingInputMsg n t).data.head? := rfl
      _ = (wrongTypeInputMsg m dt).data.head? := by rw [h]
      _ = some 'I' := rfl
  simp at hcontra

/-- A missing-input message is never a rule-failure message. -/
theorem missing_ne_ruleFail (n t m r : String) :
    missingInputMsg n t ≠ ruleFailInputMsg m r := by
  intro h
  have hcontra : (some 'R' : Option Char) = some 'I' :=
    calc (some 'R' : Option Char) = (missingInputMsg n t).data.head? := rfl
      _ = (ruleFailInputMsg m r).data.head? := by rw [h]
      _ = some 'I' := rfl
  simp at hcontra

/-- A required InputContract whose name is absent from the input map
contributes exactly the missing-input message — for every type and rule
predicate, so neither is consulted for that spec. -/
theorem spec_missing_absent (f : Value → DataType → Bool) (g : Value → String → Bool)
    (tid : String) (ic : InputContract) (inputs : List (String × Value))
    (hreq : ic.required = true) (habs : ic.name ∉ inputs.map Prod.fst) :
    specInputErrors f g tid ic inputs = [missingInputMsg ic.name tid] := by
  have hc : ((inputs.map Prod.fst).contains ic.name) = false := by simpa using habs
  unfold specInputErrors
  rw [hreq, hc]
  simp

/-- A spec with a different name never contributes the missing-input message
of `nm`. -/
theorem missing_not_mem_spec (f : Value → DataType → Bool) (g : Value → String → Bool)
    (tid nm : String) (j : InputContract) (inputs : List (String × Value))
    (hne : j.name ≠ nm) :
    missingInputMsg nm tid ∉ specInputErrors f g tid j inputs := by
  unfold specInputErrors
  intro hmem
  by_cases hb : (j.required && !((inputs.map Prod.fst).contains j.name)) = true
  · rw [if_pos hb] at hmem
    rcases List.mem_singleton.mp hmem with heq
    exact hne (missingInputMsg_inj heq.symm)
  · rw [if_neg hb] at hmem
    cases hlook : inputs.lookup j.name with
    | none => rw [hlook] at hmem; simp at hmem
    | some v =>
        rw [hlook] at hmem
        rcases List.mem_append.mp hmem with hty | hrule
        · by_cases ht : f v j.data_type = true
          · rw [if_pos ht] at hty; simp at hty
          · rw [if_neg ht] at hty
            exact missing_ne_wrongType nm tid j.name j.data_type (List.mem_singleton.mp hty)
        · rcases List.mem_filterMap.mp hrule with ⟨rule, _, hsome⟩
          by_cases hg : g v rule = true
          · rw [if_pos hg] at hsome; simp at hsome
          · rw [if_neg hg] at hsome
            exact missing_ne_ruleFail nm tid j.name rule (Option.some.inj hsome).symm

/-- If no spec of the list contributes a message, its count in the flattened
violation list is zero. -/
theorem count_missing_zero (f : Value → DataType → Bool) (g : Value → String → Bool)
    (tid msg : String) (inputs : List (String × Value)) (l : List InputContract)
    (h : ∀ j ∈ l, msg ∉ specInputErrors f g tid j inputs) :
    ((l.map (fun j => specInputErrors f g tid j inputs)).flatten).count msg = 0 := by
  rw [List.count_eq_zero]
  intro hmem
  rcases List.mem_flatten.mp hmem with ⟨sub, hsub, hmsg⟩
  rcases List.mem_map.mp hsub with ⟨j, hj, rfl⟩
  exact h j hj hmsg

/-- The flattened violation list of a name-duplicate-free spec list counts
the missing-input message of a required absent spec exactly once. -/
theorem count_missing_one (f : Value → DataType → Bool) (g : Value → String → Bool)
    (tid : String) (inputs : List (String × Value)) (ic : InputContract)
    (hreq : ic.required = true) (habs : ic.name ∉ inputs.map Prod.fst) :
    ∀ (l : List InputContract), (l.map InputContract.name).Nodup → ic ∈ l →
      ((l.map (fun j => specInputErrors f g tid j inputs)).flatten).count
          (missingInputMsg ic.name tid) = 1 := by
  intro l
  induction l with
  | nil => intro _ h; simp at h
  | cons j rest ih =>
      intro hnd hmem
      rw [List.map_cons] at hnd
      have hjnot : j.name ∉ rest.map InputContract.name := (List.nodup_cons.mp hnd).1
      have hnd' : (rest.map InputContract.name).Nodup := (List.nodup_cons.mp hnd).2
      rw [List.map_cons, List.flatten_cons, List.count_append]
      rcases List.mem_cons.mp hmem with rfl | hrest
      · rw [spec_missing_absent f g tid ic inputs hreq habs]
        have hz : ∀ j2 ∈ rest, missingInputMsg ic.name tid ∉ specInputErrors f g tid j2 inputs := by
          intro j2 hj2
          apply missing_not_mem_spec
          intro heq
          exact hjnot (heq ▸ List.mem_map.mpr ⟨j2, hj2, rfl⟩)
        rw [count_missing_zero f g tid _ inputs rest hz]
        simp
      · have hne : j.name ≠ ic.name := by
          intro heq
          exact hjnot (heq ▸ List.mem_map.mpr ⟨ic, hrest, rfl⟩)
        have h0 : (specInputErrors f g tid j inputs).count (missingInputMsg ic.name tid) = 0 :=
          List.count_eq_zero.mpr (missing_not_mem_spec f g tid ic.name j inputs hne)
        rw [h0, ih hnd' hrest]

/-- C4: for a task whose declared input names are unique, a required
InputContract whose name is absent from the input map contributes exactly
the one missing-input violation — for arbitrary type and rule predicates, so
no type check or validation rule is evaluated for that spec — and
`validate_task_inputs` contains that violation exactly once. -/
theorem validate_inputs_missing_required
    (f : Value → DataType → Bool) (g : Value → String → Bool) (pathExists : String → Bool)
    (task : Task) (inputs : List (String × Value)) (ic : InputContract)
    (hnodup : (task.contract.inputs.map InputContract.name).Nodup)
    (hmem : ic ∈ task.contract.inputs) (hreq : ic.required = true)
    (habs : ic.name ∉ inputs.map Prod.fst) :
    specInputErrors f g task.id ic inputs = [missingInputMsg ic.name task.id]
    ∧ (validateTaskInputsWith f g task inputs).count (missingInputMsg ic.name task.id) = 1
    ∧ (validateTaskInputs pathExists task inputs).count (missingInputMsg ic.name task.id) = 1 :=
  ⟨spec_missing_absent f g task.id ic inputs hreq habs,
    count_missing_one f g task.id inputs ic hreq habs task.contract.inputs hnodup hmem,
    count_missing_one (validateDataType pathExists) validateRule task.id inputs ic hreq habs
      task.contract.inputs hnodup hmem⟩

/-- C4 witness: the sample auth_system task with the C5 input map, whose
auth_config input is required and absent. -/
theorem validate_inputs_missing_required_witness :
    specInputErrors (fun _ _ => true) (fun _ _ => true) "auth_system" authConfigSpec c5Inputs
        = [missingInputMsg "auth_config" "auth_system"]
    ∧ (validateTaskInputsWith (fun _ _ => true) (fun _ _ => true) authSystemTask c5Inputs).count
        (missingInputMsg "auth_config" "auth_system") = 1
    ∧ (validateTaskInputs (fun _ => true) authSystemTask c5Inputs).count
        (missingInputMsg "auth_config" "auth_system") = 1 :=
  validate_inputs_missing_required (fun _ _ => true) (fun _ _ => true) (fun _ => true)
    authSystemTask c5Inputs authConfigSpec (by decide) (by decide) rfl (by decide)

/-! ## C5: the sample auth_system validation run -/

/-- C5: on the sample auth_system task, the input map holding only
user_data produces exactly the single missing-auth_config violation; in
particular the rule "password length > 8" passes on the user_data dict
(its `len(str(value))` is 38 > 8), and produces no violation.  The
filesystem predicate is irrelevant (no `file`-typed input) and is
universally quantified. -/
theorem auth_sample_missing_auth_config (pathExists : String → Bool) :
    validateTaskInputs pathExists authSystemTask c5Inputs
      = ["Required input \x27auth_config\x27 missing for task auth_system"] := rfl

/-! ## C6: unrecognized rules -/

/-- C6 counterexample: the rule "length > abc" matches none of the three
grammar forms — its bound is not an integer — so the claim says
`_validate_rule` returns True; the code instead hits the `ValueError` from
`int("abc")`, lands in the bare `except`, and returns False. -/
theorem validate_rule_unparsable_cex :
    validateRule (Value.str "x") "length > abc" = false := rfl

/-- C6 amended: for every value and every rule string that contains none of
the substrings "length >", "not empty" and "positive", `_validate_rule`
returns True, so the validators emit no violation for that rule.  (The
original claim — every rule not matching the three grammar forms passes —
fails on rules containing "length >" with a non-integer bound, which reach
the except branch and return False.) -/
theorem validate_rule_unrecognized_passes (v : Value) (rule : String)
    (h1 : pyIn "length >" rule = false)
    (h2 : pyIn "not empty" rule = false)
    (h3 : pyIn "positive" rule = false) :
    validateRule v rule = true := by
  unfold validateRule
  simp [h1, h2, h3]

/-- C6 witness: a free-text advisory rule passes for every value shape. -/
theorem validate_rule_unrecognized_passes_witness :
    pyIn "length >" "has username" = false
    ∧ validateRule (Value.str "") "has username" = true :=
  ⟨by decide,
    validate_rule_unrecognized_passes (Value.str "") "has username"
      (by decide) (by decide) (by decide)⟩

/-! ## C7: all-or-nothing reservation -/

/-- C7: `reserve(R, task_id)` either succeeds — every id of R is removed
from the available set, each (resource, task) allocation is recorded — or,
when some id of R is unavailable, fails with the manager left completely
unchanged.  (Definition modelled from the spec; the class is absent from
the source tree.) -/
theorem reserve_all_or_nothing (rm : ResourceManager) (ids : List String) (tid : String) :
    ((rm.reserve ids tid).fst = true
      ∧ (∀ r, r ∈ (rm.reserve ids tid).snd.available ↔ r ∈ rm.available ∧ r ∉ ids)
      ∧ (∀ r ∈ ids, (r, tid) ∈ (rm.reserve ids tid).snd.allocations)
      ∧ (rm.reserve ids tid).snd.allocations = rm.allocations ++ ids.map (fun r => (r, tid))
      ∧ (∀ r ∈ ids, r ∈ rm.available))
    ∨ ((rm.reserve ids tid).fst = false
      ∧ (rm.reserve ids tid).snd = rm
      ∧ ∃ r ∈ ids, r ∉ rm.available) := by
  cases hball : (ids.all fun r => rm.available.contains r) with
  | true =>
      have hres : rm.reserve ids tid
          = (true, ⟨rm.available.filter (fun r => !(ids.contains r)),
              rm.allocations ++ ids.map (fun r => (r, tid))⟩) := by
        unfold ResourceManager.reserve
        rw [hball]
        simp
      have hp : ∀ r ∈ ids, r ∈ rm.available := fun r hr => by
        simpa using List.all_eq_true.mp hball r hr
      left
      refine ⟨by rw [hres], ?_, ?_, by rw [hres], hp⟩
      · intro r
        rw [hres]
        simp [List.mem_filter]
      · intro r hr
        rw [hres]
        simp only [List.mem_append]
        right
        exact List.mem_map.mpr ⟨r, hr, rfl⟩
  | false =>
      have hres : rm.reserve ids tid = (false, rm) := by
        unfold ResourceManager.reserve
        rw [hball]
        simp
      have hp : ∃ r ∈ ids, r ∉ rm.available := by
        by_contra hc
        push_neg at hc
        have hall : (ids.all fun r => rm.available.contains r) = true := by
          simp only [List.all_eq_true]
          intro r hr
          simpa using hc r hr
        rw [hball] at hall
        exact Bool.false_ne_true hall
      exact Or.inr ⟨by rw [hres], by rw [hres], hp⟩

/-! ## C8: failures converted into error results -/

/-- C8: any exception raised while obtaining the generated implementation or
while running it in the sandbox is converted by `execute_task` into the
single-entry error result with success False — the function returns a result
object on every input (it is total), never an unhandled fault. -/
theorem execute_task_converts_failures (gen : Except String String)
    (sandbox : String → List (String × Value) → Except String SandboxResult)
    (pathExists : String → Bool) (task : Task) (ctx : ExecutionContext) (e : String)
    (hclean : ctx.errors = [])
    (hfail : obtainCode task gen = Except.error e
      ∨ ∃ code, obtainCode task gen = Except.ok code
          ∧ sandbox code ctx.inputs = Except.error e) :
    (executeTask gen sandbox pathExists task ctx).result
      = ⟨false, Option.none, ["Execution error: " ++ e], Option.none⟩ := by
  unfold executeTask
  have hempty : ctx.errors.isEmpty = true := by simp [hclean]
  rcases hfail with h | ⟨code, hok, herr⟩
  · simp [hempty, h]
  · simp [hempty, hok, herr]

/-- C8 witness: a failing generator on a task with no cached code. -/
theorem execute_task_converts_failures_witness :
    (executeTask (Except.error "boom") (fun _ _ => Except.error "s") (fun _ => false)
        authSystemTask ⟨"auth_system", [], [], [], [], []⟩).result
      = ⟨false, Option.none, ["Execution error: boom"], Option.none⟩ :=
  execute_task_converts_failures _ _ _ _ _ "boom" rfl (Or.inl rfl)

/-! ## C9: short-circuit on a context with errors -/

/-- C9: on a context whose error list is non-empty, `execute_task` returns
success False with exactly the contexts errors, without touching the context
(outputs and trace unchanged, nothing appended) or the task (no code
generation: the generator and the sandbox are arbitrary and unused). -/
theorem execute_task_short_circuit (gen : Except String String)
    (sandbox : String → List (String × Value) → Except String SandboxResult)
    (pathExists : String → Bool) (task : Task) (ctx : ExecutionContext)
    (h : ctx.errors ≠ []) :
    executeTask gen sandbox pathExists task ctx
      = ⟨⟨false, Option.none, ctx.errors, Option.none⟩, ctx, task⟩ := by
  unfold executeTask
  have : ctx.errors.isEmpty = false := by
    cases hc : ctx.errors with
    | nil => exact absurd hc h
    | cons a l => simp
  simp [this]

/-- C9 witness: a context carrying a pre-existing error short-circuits. -/
theorem execute_task_short_circuit_witness :
    executeTask (Except.error "g") (fun _ _ => Except.error "s") (fun _ => false)
        authSystemTask ⟨"auth_system", [], [], ["x"], [], []⟩
      = ⟨⟨false, Option.none, ["x"], Option.none⟩,
          ⟨"auth_system", [], [], ["x"], [], []⟩, authSystemTask⟩ :=
  execute_task_short_circuit _ _ _ _ _ (by decide)

/-! ## C1: the exit surface of a planning run -/

/-- A duplicate-free list included in another list is no longer than it. -/
theorem length_le_of_nodup_subset {c keys : List String} (hnd : c.Nodup)
    (hsub : ∀ x ∈ c, x ∈ keys) : c.length ≤ keys.length :=
  calc c.length = c.toFinset.card := (List.toFinset_card_of_nodup hnd).symm
    _ ≤ keys.toFinset.card :=
        Finset.card_le_card (fun x hx => List.mem_toFinset.mpr (hsub x (List.mem_toFinset.mp hx)))
    _ ≤ keys.length := keys.toFinset_card_le

/-- A duplicate-free list included in a list at most as long covers it. -/
theorem goals_covered {c goals : List String} (hnd : c.Nodup)
    (hsub : ∀ x ∈ c, x ∈ goals) (hlen : goals.length ≤ c.length) :
    ∀ g ∈ goals, g ∈ c := by
  have hcsub : c.toFinset ⊆ goals.toFinset := fun x hx =>
    List.mem_toFinset.mpr (hsub x (List.mem_toFinset.mp hx))
  have hcard : goals.toFinset.card ≤ c.toFinset.card :=
    calc goals.toFinset.card ≤ goals.length := goals.toFinset_card_le
      _ ≤ c.length := hlen
      _ = c.toFinset.card := (List.toFinset_card_of_nodup hnd).symm
  have heq : c.toFinset = goals.toFinset := Finset.eq_of_subset_of_card_le hcsub hcard
  intro g hg
  have : g ∈ c.toFinset := by rw [heq]; exact List.mem_toFinset.mpr hg
  exact List.mem_toFinset.mp this

/-- Updating a task status preserves the key list of the task map. -/
theorem keys_setTaskStatus (l : List (String × Task)) (tid : String) (st : TaskStatus) :
    (setTaskStatus l tid st).map Prod.fst = l.map Prod.fst := by
  simp only [setTaskStatus, List.map_map]
  apply List.map_congr_left
  intro kv _
  by_cases h : kv.fst = tid <;> simp [h]

/-- Updating a task status preserves the size of the task map. -/
theorem length_setTaskStatus (l : List (String × Task)) (tid : String) (st : TaskStatus) :
    (setTaskStatus l tid st).length = l.length := by
  simp [setTaskStatus]

/-- Loop invariant for `_generate_plan`: with a duplicate-free completed
list of goal ids that are task keys, and enough remaining budget, the loop
ends either with every goal id completed and no error step, or with a plan
whose final step is its unique error step.  The budget bound is maintained
because every iteration that consumes budget also completes one more
distinct task key. -/
theorem generate_plan_loop_exit (goals : List String) :
    ∀ (fuel : Nat) (ws : PlanningState),
      ws.completed_tasks.Nodup →
      (∀ x ∈ ws.completed_tasks, x ∈ goals) →
      (∀ x ∈ ws.completed_tasks, x ∈ ws.tasks.map Prod.fst) →
      ws.tasks.length < fuel + ws.completed_tasks.length →
      (((generatePlanLoop goals fuel ws).countP isErrorStep = 0
          ∧ ∀ g ∈ goals, g ∈ ws.completed_tasks ∨ g ∈ execIds (generatePlanLoop goals fuel ws))
        ∨ (∃ p msg tm, generatePlanLoop goals fuel ws = p ++ [PlanStep.error msg tm]
            ∧ p.countP isErrorStep = 0)) := by
  intro fuel
  induction fuel with
  | zero =>
      intro ws hnd hgoals hkeys hlen
      exfalso
      have hle : ws.completed_tasks.length ≤ ws.tasks.length := by
        calc ws.completed_tasks.length ≤ (ws.tasks.map Prod.fst).length :=
              length_le_of_nodup_subset hnd hkeys
          _ = ws.tasks.length := List.length_map _ _
      omega
  | succ fuel ih =>
      intro ws hnd hgoals hkeys hlen
      rw [generatePlanLoop]
      by_cases hcond : ws.completed_tasks.length < goals.length
      · rw [if_pos hcond]
        split
        · right
          exact ⟨[], planStuckMsg (goals.filter (fun tid => !(ws.completed_tasks.contains tid))),
            ws.current_time, rfl, rfl⟩
        · next tid rest hready =>
            have htidmem : tid ∈ findReadyTasks ws goals := by
              rw [hready]; exact List.mem_cons_self _ _
            have h2 := List.mem_filter.mp htidmem
            have htidgoal : tid ∈ goals := h2.1
            rcases (readyCond_iff ws tid).mp h2.2 with ⟨hnotc, t, hlook, _, _, _⟩
            split
            · next hlooknone =>
                exfalso
                rw [hlook] at hlooknone
                exact Option.noConfusion hlooknone
            · next task hlook2 =>
                have htask : task = t := by
                  rw [hlook] at hlook2
                  exact (Option.some.inj hlook2).symm
                subst htask
                set ws2 : PlanningState := { ws with
                  tasks := setTaskStatus ws.tasks tid TaskStatus.completed,
                  completed_tasks := ws.completed_tasks ++ [tid],
                  current_time := ws.current_time + task.duration_hours } with hws2
                have hnd2 : ws2.completed_tasks.Nodup := by
                  rw [show ws2.completed_tasks = ws.completed_tasks ++ [tid] from rfl,
                    List.nodup_append]
                  refine ⟨hnd, List.nodup_singleton _, ?_⟩
                  intro a ha hb
                  rcases List.mem_singleton.mp hb with rfl
                  exact hnotc ha
                have hgoals2 : ∀ x ∈ ws2.completed_tasks, x ∈ goals := by
                  intro x hx
                  rcases List.mem_append.mp hx with hx | hx
                  · exact hgoals x hx
                  · rcases List.mem_singleton.mp hx with rfl
                    exact htidgoal
                have hkeys2 : ∀ x ∈ ws2.completed_tasks, x ∈ ws2.tasks.map Prod.fst := by
                  intro x hx
                  rw [show ws2.tasks = setTaskStatus ws.tasks tid TaskStatus.completed from rfl,
                    keys_setTaskStatus]
                  rcases List.mem_append.mp hx with hx | hx
                  · exact hkeys x hx
                  · rcases List.mem_singleton.mp hx with rfl
                    exact lookup_isSome_mem_keys (by rw [hlook]; rfl)
                have hlen2 : ws2.tasks.length < fuel + ws2.completed_tasks.length := by
                  have he1 : ws2.tasks.length = ws.tasks.length :=
                    length_setTaskStatus ws.tasks tid TaskStatus.completed
                  have he2 : ws2.completed_tasks.length = ws.completed_tasks.length + 1 := by
                    rw [show ws2.completed_tasks = ws.completed_tasks ++ [tid] from rfl]
                    simp
                  omega
                rcases ih ws2 hnd2 hgoals2 hkeys2 hlen2 with ⟨hcnt, hcov⟩ | ⟨p, msg, tm, heq, hp⟩
                · left
                  constructor
                  · simp [List.countP_cons, isErrorStep, hcnt]
                  · intro g hg
                    rcases hcov g hg with hgc | hgx
                    · rcases List.mem_append.mp hgc with h | h
                      · exact Or.inl h
                      · rcases List.mem_singleton.mp h with rfl
                        right
                        simp [execIds, List.filterMap_cons]
                    · right
                      simp only [execIds, List.filterMap_cons] at hgx ⊢
                      exact List.mem_cons_of_mem _ hgx
                · right
                  refine ⟨PlanStep.execute_task tid task.name task.duration_hours ws.current_time
                      (ws.current_time + task.duration_hours) task.required_resources
                      task.contract :: p,
                    msg, tm, by rw [heq, List.cons_append], ?_⟩
                  simp [List.countP_cons, isErrorStep, hp]
      · rw [if_neg hcond]
        left
        refine ⟨rfl, ?_⟩
        intro g hg
        left
        push_neg at hcond
        exact goals_covered hnd hgoals hcond g hg

/-- C1 amended: for every PlanningState whose completed-task list is
initially empty and every goal list of task-map keys, the plan returned by
`_generate_plan` either contains no error step and an `execute_task` step
for every goal id (every goal appended to the copys `completed_tasks`), or
is a plan whose last step is its single error step.  (As stated over every
PlanningState the claim fails: a state whose `completed_tasks` already
holds an id makes the `len(completed) < len(goals)` loop guard exit before
the goals are completed, returning a plan with neither the goal steps nor
an error step — see the counterexample.) -/
theorem generate_plan_exit_surface (s : PlanningState) (goals : List String)
    (hwf : ∀ g ∈ goals, (s.tasks.lookup g).isSome = true)
    (hco : s.completed_tasks = []) :
    ((generatePlan s goals).countP isErrorStep = 0
        ∧ ∀ g ∈ goals, g ∈ execIds (generatePlan s goals))
    ∨ (∃ p msg tm, generatePlan s goals = p ++ [PlanStep.error msg tm]
        ∧ p.countP isErrorStep = 0) := by
  cases hts : s.tasks with
  | nil =>
      left
      constructor
      · rw [generatePlan, hts]
        rfl
      · intro g hg
        have := hwf g hg
        rw [hts] at this
        simp [List.lookup] at this
  | cons kv rest =>
      have hlen : s.tasks.length < s.tasks.length * 2 + s.completed_tasks.length := by
        rw [hco, hts]
        simp only [List.length_cons, List.length_nil]
        omega
      have := generate_plan_loop_exit goals (s.tasks.length * 2) s
        (by rw [hco]; exact List.nodup_nil)
        (by rw [hco]; intro x hx; simp at hx)
        (by rw [hco]; intro x hx; simp at hx)
        hlen
      rcases this with ⟨hcnt, hcov⟩ | hright
      · left
        refine ⟨hcnt, ?_⟩
        intro g hg
        rcases hcov g hg with hgc | hgx
        · rw [hco] at hgc
          simp at hgc
        · exact hgx
      · exact Or.inr hright

/-- The concrete PlanningState refuting C1 as stated: one pending,
dependency-free, resource-free goal task, but a `completed_tasks` list
already holding an unrelated id. -/
def c1CexState : PlanningState :=
  { tasks := [("a", c2Task)], resources := [],
    completed_tasks := ["x"], available_resources := [] }

/-- C1 counterexample: on `c1CexState` with goal list `["a"]`, the loop
guard `len(completed_tasks) < len(goal_tasks)` is false at entry, so the
returned plan is empty — goal `a` is neither executed nor completed, and
there is no trailing error step, contradicting the claim. -/
theorem generate_plan_exit_surface_cex :
    generatePlan c1CexState ["a"] = []
    ∧ "a" ∉ execIds (generatePlan c1CexState ["a"])
    ∧ "a" ∉ c1CexState.completed_tasks := by
  refine ⟨rfl, by decide, by decide⟩

/-- C1 witness: the amended exit-surface theorem evaluated on the one-task
fresh state `c2State`. -/
theorem generate_plan_exit_surface_witness :
    ((generatePlan c2State ["a"]).countP isErrorStep = 0
        ∧ ∀ g ∈ ["a"], g ∈ execIds (generatePlan c2State ["a"]))
    ∨ (∃ p msg tm, generatePlan c2State ["a"] = p ++ [PlanStep.error msg tm]
        ∧ p.countP isErrorStep = 0) :=
  generate_plan_exit_surface c2State ["a"] (by decide) rfl

/-! ## C3: the linear chain A → B → C -/

/-- Unfolding equation of the loop for an iteration that executes the head
of a non-empty ready list. -/
theorem generatePlanLoop_exec (goals : List String) (fuel : Nat) (ws : PlanningState)
    (tid : String) (rest : List String) (t : Task)
    (hcond : ws.completed_tasks.length < goals.length)
    (hready : findReadyTasks ws goals = tid :: rest)
    (hlook : ws.tasks.lookup tid = some t) :
    generatePlanLoop goals (fuel + 1) ws =
      PlanStep.execute_task tid t.name t.duration_hours ws.current_time
          (ws.current_time + t.duration_hours) t.required_resources t.contract
        :: generatePlanLoop goals fuel
            { ws with
              tasks := setTaskStatus ws.tasks tid TaskStatus.completed,
              completed_tasks := ws.completed_tasks ++ [tid],
              current_time := ws.current_time + t.duration_hours } := by
  rw [generatePlanLoop, if_pos hcond]
  split
  · next h =>
      rw [hready] at h
      exact absurd h (List.cons_ne_nil tid rest)
  · next tid2 rest2 h =>
      rw [hready] at h
      obtain ⟨rfl, rfl⟩ : tid = tid2 ∧ rest = rest2 := by
        have := List.cons.injEq tid rest tid2 rest2 ▸ h
        exact ⟨this.1, this.2⟩
      split
      · next hnone =>
          rw [hlook] at hnone
          exact Option.noConfusion hnone
      · next t2 hsome =>
          rw [hlook] at hsome
          obtain rfl : t = t2 := Option.some.inj hsome
          rfl

/-- Unfolding equation of the loop when the guard
`len(completed) < len(goals)` fails. -/
theorem generatePlanLoop_stop (goals : List String) (fuel : Nat) (ws : PlanningState)
    (hcond : ¬ ws.completed_tasks.length < goals.length) :
    generatePlanLoop goals (fuel + 1) ws = [] := by
  rw [generatePlanLoop, if_neg hcond]

/-- Entries with another key survive a status update unchanged. -/
theorem mem_setTaskStatus_of_ne {l : List (String × Task)} {k tid : String} {v : Task}
    (st : TaskStatus) (h : (k, v) ∈ l) (hne : k ≠ tid) : (k, v) ∈ setTaskStatus l tid st :=
  List.mem_map.mpr ⟨(k, v), h, by simp [setTaskStatus, hne]⟩

/-- C3 amended: every three-task PlanningState forming the chain A → B → C
(statuses pending, each tasks required resources all available) whose
completed-task list is initially empty yields the plan consisting of exactly
the A, B, C execute steps in that order; each end time is its start time
plus the tasks duration, and each start time is the previous end time,
starting at the states clock.  (As stated over every chain state the claim
fails: with a non-empty initial `completed_tasks` the loop guard
`len(completed) < len(goals)` cuts the run short before C is scheduled —
see the counterexample.) -/
theorem chain_plan_ordered (s : PlanningState) (a b c : String) (ta tb tc : Task)
    (hab : a ≠ b) (hac : a ≠ c) (hbc : b ≠ c)
    (hperm : s.tasks.Perm [(a, ta), (b, tb), (c, tc)])
    (hco : s.completed_tasks = [])
    (hda : ta.dependencies = []) (hdb : tb.dependencies = [a]) (hdc : tc.dependencies = [b])
    (hsa : ta.status = TaskStatus.pending) (hsb : tb.status = TaskStatus.pending)
    (hsc : tc.status = TaskStatus.pending)
    (hra : ∀ r ∈ ta.required_resources, r ∈ s.available_resources)
    (hrb : ∀ r ∈ tb.required_resources, r ∈ s.available_resources)
    (hrc : ∀ r ∈ tc.required_resources, r ∈ s.available_resources) :
    generatePlanDefault s =
      [PlanStep.execute_task a ta.name ta.duration_hours s.current_time
          (s.current_time + ta.duration_hours) ta.required_resources ta.contract,
        PlanStep.execute_task b tb.name tb.duration_hours
          (s.current_time + ta.duration_hours)
          (s.current_time + ta.duration_hours + tb.duration_hours)
          tb.required_resources tb.contract,
        PlanStep.execute_task c tc.name tc.duration_hours
          (s.current_time + ta.duration_hours + tb.duration_hours)
          (s.current_time + ta.duration_hours + tb.duration_hours + tc.duration_hours)
          tc.required_resources tc.contract] := by
  have hkeysperm : (s.tasks.map Prod.fst).Perm [a, b, c] := by
    have := hperm.map Prod.fst
    simpa using this
  have hnodupkeys : (s.tasks.map Prod.fst).Nodup :=
    hkeysperm.nodup_iff.mpr (by simp [hab, hac, hbc])
  have hlen3 : s.tasks.length = 3 := by
    have := hperm.length_eq
    simpa using this
  have hglen : (s.tasks.map Prod.fst).length = 3 := by
    rw [List.length_map, hlen3]
  have hmemA : (a, ta) ∈ s.tasks := hperm.mem_iff.mpr (by simp)
  have hmemB : (b, tb) ∈ s.tasks := hperm.mem_iff.mpr (by simp)
  have hmemC : (c, tc) ∈ s.tasks := hperm.mem_iff.mpr (by simp)
  have hlookA : s.tasks.lookup a = some ta := lookup_eq_of_mem hnodupkeys hmemA
  have hlookB : s.tasks.lookup b = some tb := lookup_eq_of_mem hnodupkeys hmemB
  have hlookC : s.tasks.lookup c = some tc := lookup_eq_of_mem hnodupkeys hmemC
  set goals : List String := s.tasks.map Prod.fst with hgoalsdef
  -- iteration 1: only a is ready
  have hrcA1 : readyCond s a = true := by
    apply (readyCond_iff s a).mpr
    refine ⟨by rw [hco]; simp, ta, hlookA, hsa, by rw [hda]; simp, hra⟩
  have hrcB1 : readyCond s b = false := by
    cases hx : readyCond s b with
    | false => rfl
    | true =>
        exfalso
        rcases (readyCond_iff s b).mp hx with ⟨_, t2, hl2, _, hdeps2, _⟩
        obtain rfl : tb = t2 := by rw [hlookB] at hl2; exact Option.some.inj hl2
        have := hdeps2 a (by rw [hdb]; simp)
        rw [hco] at this
        simp at this
  have hrcC1 : readyCond s c = false := by
    cases hx : readyCond s c with
    | false => rfl
    | true =>
        exfalso
        rcases (readyCond_iff s c).mp hx with ⟨_, t2, hl2, _, hdeps2, _⟩
        obtain rfl : tc = t2 := by rw [hlookC] at hl2; exact Option.some.inj hl2
        have := hdeps2 b (by rw [hdc]; simp)
        rw [hco] at this
        simp at this
  have hready1 : findReadyTasks s goals = [a] := by
    have hpf : (goals.filter (readyCond s)).Perm ([a, b, c].filter (readyCond s)) :=
      hkeysperm.filter (readyCond s)
    have hfc : [a, b, c].filter (readyCond s) = [a] := by
      simp [List.filter_cons, List.filter_nil, hrcA1, hrcB1, hrcC1]
    rw [hfc] at hpf
    exact List.perm_singleton.mp hpf
  have hcond1 : s.completed_tasks.length < goals.length := by
    rw [hco, hglen]
    simp
  set ws1 : PlanningState := { s with
    tasks := setTaskStatus s.tasks a TaskStatus.completed,
    completed_tasks := s.completed_tasks ++ [a],
    current_time := s.current_time + ta.duration_hours } with hws1
  have e1 : generatePlanLoop goals (5 + 1) s =
      PlanStep.execute_task a ta.name ta.duration_hours s.current_time
          (s.current_time + ta.duration_hours) ta.required_resources ta.contract
        :: generatePlanLoop goals (4 + 1) ws1 :=
    generatePlanLoop_exec goals (4 + 1) s a [] ta hcond1 hready1 hlookA
  -- facts about ws1
  have hws1keys : ws1.tasks.map Prod.fst = s.tasks.map Prod.fst :=
    keys_setTaskStatus s.tasks a TaskStatus.completed
  have hws1nodup : (ws1.tasks.map Prod.fst).Nodup := by rw [hws1keys]; exact hnodupkeys
  have hws1completed : ws1.completed_tasks = [a] := by
    show s.completed_tasks ++ [a] = [a]
    rw [hco]
    rfl
  have hws1lookB : ws1.tasks.lookup b = some tb :=
    lookup_eq_of_mem hws1nodup
      (mem_setTaskStatus_of_ne TaskStatus.completed hmemB (Ne.symm hab))
  have hws1lookC : ws1.tasks.lookup c = some tc :=
    lookup_eq_of_mem hws1nodup
      (mem_setTaskStatus_of_ne TaskStatus.completed hmemC (Ne.symm hac))
  -- iteration 2: only b is ready
  have hrcA2 : readyCond ws1 a = false := by
    cases hx : readyCond ws1 a with
    | false => rfl
    | true =>
        exfalso
        rcases (readyCond_iff ws1 a).mp hx with ⟨hna, _⟩
        rw [hws1completed] at hna
        simp at hna
  have hrcB2 : readyCond ws1 b = true := by
    apply (readyCond_iff ws1 b).mpr
    refine ⟨?_, tb, hws1lookB, hsb, ?_, ?_⟩
    · rw [hws1completed]
      simp [Ne.symm hab]
    · rw [hdb, hws1completed]
      simp
    · exact hrb
  have hrcC2 : readyCond ws1 c = false := by
    cases hx : readyCond ws1 c with
    | false => rfl
    | true =>
        exfalso
        rcases (readyCond_iff ws1 c).mp hx with ⟨_, t2, hl2, _, hdeps2, _⟩
        obtain rfl : tc = t2 := by rw [hws1lookC] at hl2; exact Option.some.inj hl2
        have := hdeps2 b (by rw [hdc]; simp)
        rw [hws1completed] at this
        simp at this
        exact hab this.symm
  have hready2 : findReadyTasks ws1 goals = [b] := by
    have hpf : (goals.filter (readyCond ws1)).Perm ([a, b, c].filter (readyCond ws1)) :=
      hkeysperm.filter (readyCond ws1)
    have hfc : [a, b, c].filter (readyCond ws1) = [b] := by
      simp [List.filter_cons, List.filter_nil, hrcA2, hrcB2, hrcC2]
    rw [hfc] at hpf
    exact List.perm_singleton.mp hpf
  have hcond2 : ws1.completed_tasks.length < goals.length := by
    rw [hws1completed, hglen]
    simp
  set ws2 : PlanningState := { ws1 with
    tasks := setTaskStatus ws1.tasks b TaskStatus.completed,
    completed_tasks := ws1.completed_tasks ++ [b],
    current_time := ws1.current_time + tb.duration_hours } with hws2
  have e2 : generatePlanLoop goals (4 + 1) ws1 =
      PlanStep.execute_task b tb.name tb.duration_hours ws1.current_time
          (ws1.current_time + tb.duration_hours) tb.required_resources tb.contract
        :: generatePlanLoop goals (3 + 1) ws2 :=
    generatePlanLoop_exec goals (3 + 1) ws1 b [] tb hcond2 hready2 hws1lookB
  -- facts about ws2
  have hws2keys : ws2.tasks.map Prod.fst = s.tasks.map Prod.fst := by
    show (setTaskStatus ws1.tasks b TaskStatus.completed).map Prod.fst = _
    rw [keys_setTaskStatus, hws1keys]
  have hws2nodup : (ws2.tasks.map Prod.fst).Nodup := by rw [hws2keys]; exact hnodupkeys
  have hws2completed : ws2.completed_tasks = [a, b] := by
    show ws1.completed_tasks ++ [b] = [a, b]
    rw [hws1completed]
    rfl
  have hws2lookC : ws2.tasks.lookup c = some tc :=
    lookup_eq_of_mem hws2nodup
      (mem_setTaskStatus_of_ne TaskStatus.completed
        (mem_setTaskStatus_of_ne TaskStatus.completed hmemC (Ne.symm hac)) (Ne.symm hbc))
  -- iteration 3: only c is ready
  have hrcA3 : readyCond ws2 a = false := by
    cases hx : readyCond ws2 a with
    | false => rfl
    | true =>
        exfalso
        rcases (readyCond_iff ws2 a).mp hx with ⟨hna, _⟩
        rw [hws2completed] at hna
        simp at hna
  have hrcB3 : readyCond ws2 b = false := by
    cases hx : readyCond ws2 b with
    | false => rfl
    | true =>
        exfalso
        rcases (readyCond_iff ws2 b).mp hx with ⟨hnb, _⟩
        rw [hws2completed] at hnb
        simp at hnb
  have hrcC3 : readyCond ws2 c = true := by
    apply (readyCond_iff ws2 c).mpr
    refine ⟨?_, tc, hws2lookC, hsc, ?_, ?_⟩
    · rw [hws2completed]
      simp [Ne.symm hac, Ne.symm hbc]
    · rw [hdc, hws2completed]
      simp
    · exact hrc
  have hready3 : findReadyTasks ws2 goals = [c] := by
    have hpf : (goals.filter (readyCond ws2)).Perm ([a, b, c].filter (readyCond ws2)) :=
      hkeysperm.filter (readyCond ws2)
    have hfc : [a, b, c].filter (readyCond ws2) = [c] := by
      simp [List.filter_cons, List.filter_nil, hrcA3, hrcB3, hrcC3]
    rw [hfc] at hpf
    exact List.perm_singleton.mp hpf
  have hcond3 : ws2.completed_tasks.length < goals.length := by
    rw [hws2completed, hglen]
    simp
  set ws3 : PlanningState := { ws2 with
    tasks := setTaskStatus ws2.tasks c TaskStatus.completed,
    completed_tasks := ws2.completed_tasks ++ [c],
    current_time := ws2.current_time + tc.duration_hours } with hws3
  have e3 : generatePlanLoop goals (3 + 1) ws2 =
      PlanStep.execute_task c tc.name tc.duration_hours ws2.current_time
          (ws2.current_time + tc.duration_hours) tc.required_resources tc.contract
        :: generatePlanLoop goals (2 + 1) ws3 :=
    generatePlanLoop_exec goals (2 + 1) ws2 c [] tc hcond3 hready3 hws2lookC
  -- the guard now fails: all three goals completed
  have hws3completed : ws3.completed_tasks = [a, b, c] := by
    show ws2.completed_tasks ++ [c] = [a, b, c]
    rw [hws2completed]
    rfl
  have e4 : generatePlanLoop goals (2 + 1) ws3 = [] := by
    apply generatePlanLoop_stop
    rw [hws3completed, hglen]
    simp
  -- assemble
  rw [generatePlanDefault, generatePlan, hlen3, ← hgoalsdef]
  show generatePlanLoop goals (5 + 1) s = _
  rw [e1, e2, e3, e4]

/-- A chain task of duration 1 for the C3 concrete states. -/
def c3t (tid : String) (deps : List String) : Task :=
  { id := tid, name := tid, description := "", duration_hours := 1,
    dependencies := deps, contract := { task_id := tid } }

/-- The chain state refuting C3 as stated: the A → B → C chain (all pending,
no required resources) but with a `completed_tasks` list already holding an
unrelated id. -/
def c3CexState : PlanningState :=
  { tasks := [("a", c3t "a" []), ("b", c3t "b" ["a"]), ("c", c3t "c" ["b"])],
    resources := [], completed_tasks := ["x"], available_resources := [] }

/-- C3 counterexample: on the chain state with pre-populated
`completed_tasks`, the loop guard stops the run after A and B — the plan has
no execute step for C, contradicting the claim. -/
theorem chain_plan_ordered_cex :
    execIds (generatePlanDefault c3CexState) = ["a", "b"]
    ∧ "c" ∉ execIds (generatePlanDefault c3CexState) := by
  refine ⟨rfl, by decide⟩

/-- The fresh chain state for the C3 witness. -/
def c3State : PlanningState :=
  { tasks := [("a", c3t "a" []), ("b", c3t "b" ["a"]), ("c", c3t "c" ["b"])],
    resources := [], completed_tasks := [], available_resources := [] }

/-- C3 witness: the amended chain theorem evaluated on the fresh chain
state. -/
theorem chain_plan_ordered_witness :
    generatePlanDefault c3State =
      [PlanStep.execute_task "a" (c3t "a" []).name (c3t "a" []).duration_hours
          c3State.current_time (c3State.current_time + (c3t "a" []).duration_hours)
          (c3t "a" []).required_resources (c3t "a" []).contract,
        PlanStep.execute_task "b" (c3t "b" ["a"]).name (c3t "b" ["a"]).duration_hours
          (c3State.current_time + (c3t "a" []).duration_hours)
          (c3State.current_time + (c3t "a" []).duration_hours + (c3t "b" ["a"]).duration_hours)
          (c3t "b" ["a"]).required_resources (c3t "b" ["a"]).contract,
        PlanStep.execute_task "c" (c3t "c" ["b"]).name (c3t "c" ["b"]).duration_hours
          (c3State.current_time + (c3t "a" []).duration_hours + (c3t "b" ["a"]).duration_hours)
          (c3State.current_time + (c3t "a" []).duration_hours + (c3t "b" ["a"]).duration_hours
            + (c3t "c" ["b"]).duration_hours)
          (c3t "c" ["b"]).required_resources (c3t "c" ["b"]).contract] :=
  chain_plan_ordered c3State "a" "b" "c" (c3t "a" []) (c3t "b" ["a"]) (c3t "c" ["b"])
    (by decide) (by decide) (by decide) (List.Perm.refl _) rfl rfl rfl rfl rfl rfl rfl
    (by simp [c3t]) (by simp [c3t]) (by simp [c3t])

/-! ## C10: the planning run leaves the input state unchanged -/

/-- C10: after a `_generate_plan` call, the callers PlanningState is
unchanged — completed task list, failed task list, clock, available
resources, and the status of every task are those from before the call.
The simulation mutates only the deep copy
`PlanningState(**state.model_dump())`, which `generatePlanRun` makes
explicit by running the loop on the copy and returning the callers object
untouched. -/
theorem generate_plan_preserves_input_state (s : PlanningState) (goals : List String) :
    (generatePlanRun s goals).snd.completed_tasks = s.completed_tasks
    ∧ (generatePlanRun s goals).snd.failed_tasks = s.failed_tasks
    ∧ (generatePlanRun s goals).snd.current_time = s.current_time
    ∧ (generatePlanRun s goals).snd.available_resources = s.available_resources
    ∧ ∀ tid, ((generatePlanRun s goals).snd.tasks.lookup tid).map Task.status
        = (s.tasks.lookup tid).map Task.status :=
  ⟨rfl, rfl, rfl, rfl, fun _ => rfl⟩

end PDDLCore
